import Mathlib

/-!
# optimize-database.js

A shallow embedding of `OrDo/shared/scripts/optimize-database.js`: the script
parses `CookieGUARD-Clean/site-database.json`, projects every site record to
a compact record, writes the result back to the same path and prints a report.

JavaScript values are modelled dynamically: a parsed JSON value is a `Json`,
and the result of evaluating an expression is an `Option Json`, where `none`
is `undefined`.
-/

namespace OptimizeDatabase

/-! ## Values -/

/-- Values produced by `JSON.parse`. Numbers are kept as integers: the script
only copies numbers and tests them for zero. An object is the list of its own
properties in the order `Object.entries` enumerates them. -/
inductive Json where
  | null
  | bool (b : Bool)
  | num (n : Int)
  | str (s : String)
  | arr (items : List Json)
  | obj (props : List (String × Json))

/-- Errors that abort the script. Reading a property of `undefined` or `null`
and `Object.entries(undefined)` throw a `TypeError`; `JSON.parse` throws a
`SyntaxError`; the `fs` calls throw on a file that cannot be used. -/
inductive Err where
  | typeError
  | syntaxError
  | ioError
  deriving DecidableEq, Repr

/-- Own property `k` of a property list. -/
def ownProp (k : String) : List (String × Json) → Option Json
  | [] => none
  | (k', v) :: rest => if k' = k then some v else ownProp k rest

/-- The keys of a property list, as `Object.keys` lists them. -/
def keys (props : List (String × Json)) : List String :=
  props.map Prod.fst

/-- Property read `v.k` for the property names the script reads (none of them
is inherited from a prototype or is `length` or an index): it throws on
`undefined` and `null`, reads the own property of an object, and is
`undefined` on the other values. -/
def getProp : Option Json → String → Except Err (Option Json)
  | none, _ => .error .typeError
  | some .null, _ => .error .typeError
  | some (.obj props), k => .ok (ownProp k props)
  | some _, _ => .ok none

/-- Optional chaining `v?.k`: `undefined` when `v` is `undefined` or `null`. -/
def optChain : Option Json → String → Option Json
  | some (.obj props), k => ownProp k props
  | _, _ => none

/-- JavaScript truthiness. -/
def truthy : Option Json → Bool
  | none => false
  | some .null => false
  | some (.bool b) => b
  | some (.num n) => n != 0
  | some (.str s) => s != ""
  | some (.arr _) => true
  | some (.obj _) => true

/-- The expression `v || d` with a literal default `d`. -/
def orDefault (v : Option Json) (d : Json) : Json :=
  match v with
  | some x => if truthy (some x) then x else d
  | none => d

/-- An object literal. A property whose value is `undefined` is left out:
`JSON.stringify` omits it from the written document, and reading it gives
`undefined` either way. -/
def mkObj (fields : List (String × Option Json)) : Json :=
  .obj (fields.filterMap fun p => p.2.map fun v => (p.1, v))

/-- The call `Object.entries(v)`: throws on `undefined` and `null`, lists the
own properties of an object, the indexed elements of an array and the
characters of a string, and is empty on numbers and booleans. -/
def objectEntries : Option Json → Except Err (List (String × Json))
  | none => .error .typeError
  | some .null => .error .typeError
  | some (.obj props) => .ok props
  | some (.arr items) => .ok (items.enum.map fun p => (toString p.1, p.2))
  | some (.str s) => .ok (s.data.enum.map fun p => (toString p.1, .str (String.singleton p.2)))
  | some _ => .ok []

/-- The assignment `optimizedData.sites[domain] = record` on an object created
as `{}`, where `record` is an object. The key `__proto__` reaches the setter
inherited from `Object.prototype`, which replaces the prototype and creates no
own property, so neither `Object.keys` nor `JSON.stringify` sees it. Any other
key overwrites the own property of that name or appends a new one. -/
def assignSite (sites : List (String × Json)) (domain : String) (record : Json) :
    List (String × Json) :=
  if domain = "__proto__" then sites
  else if domain ∈ keys sites then
    sites.map fun p => if p.1 = domain then (p.1, record) else p
  else sites ++ [(domain, record)]

/-! ## The transformation (lines 7-34) -/

/-- The `banner` field (lines 27-32). -/
def bannerOf (hasBanner bannerInfo : Option Json) : Json :=
  if truthy hasBanner then
    mkObj [
      ("buttons", some (orDefault (optChain bannerInfo "buttonCount") (.num 0))),
      ("hasAccept", some (orDefault (optChain bannerInfo "hasAccept") (.bool false))),
      ("hasReject", some (orDefault (optChain bannerInfo "hasReject") (.bool false))),
      ("hasSettings", some (orDefault (optChain bannerInfo "hasSettings") (.bool false)))]
  else .null

/-- The compact record built for one site (lines 16-33). -/
def projectSite (data : Json) : Except Err Json := do
  let rating ← getProp (some data) "rating"
  let cookieCount ← getProp (some data) "cookieCount"
  let hasBanner ← getProp (some data) "hasBanner"
  let cookieStats ← getProp (some data) "cookieStats"
  let tracking ← getProp cookieStats "tracking"
  let analytics ← getProp cookieStats "analytics"
  let essential ← getProp cookieStats "essential"
  -- `data` is not `null` here, so this read cannot throw
  let bannerInfo ← getProp (some data) "bannerInfo"
  pure (mkObj [
    ("rating", rating),
    ("cookieCount", cookieCount),
    ("hasBanner", hasBanner),
    ("stats", some (mkObj [
      ("tracking", tracking),
      ("analytics", analytics),
      ("essential", essential)])),
    ("banner", some (bannerOf hasBanner bannerInfo))])

/-- The `forEach` loop (lines 15-34) over the entries still to visit, with the
`sites` object built so far. -/
def projectAll : List (String × Json) → List (String × Json) →
    Except Err (List (String × Json))
  | [], sites => .ok sites
  | (domain, data) :: rest, sites =>
    match projectSite data with
    | .error e => .error e
    | .ok record => projectAll rest (assignSite sites domain record)

/-- The document `optimizedData` built from the parsed `fullData`
(lines 7-34). -/
def optimize (fullData : Json) : Except Err Json := do
  let version ← getProp (some fullData) "version"
  let generatedAt ← getProp (some fullData) "generatedAt"
  let totalSites ← getProp (some fullData) "totalSites"
  let sites ← getProp (some fullData) "sites"
  let entries ← objectEntries sites
  let optimizedSites ← projectAll entries []
  pure (mkObj [
    ("version", version),
    ("generatedAt", generatedAt),
    ("totalSites", totalSites),
    ("sites", some (.obj optimizedSites))])

/-! ## The run (lines 4-46) -/

/-- What a file holds, as far as the script can tell. -/
inductive File where
  | unreadable
  | malformed
  | json (doc : Json)

/-- The part of the file system the script touches: the database at
`CookieGUARD-Clean/site-database.json`, whether that path accepts a write, and
whether `backend/results/cookieguard-extension-data.json` exists for
`fs.statSync`. -/
structure World where
  siteDatabase : File
  writable : Bool
  rawExportPresent : Bool

/-- One run of the script: load, transform, persist, report. The report only
prints, but its `fs.statSync` of the raw export throws when that file is
missing, after the database has been written. The result is the file system
after the run and whether the run ended with an error. -/
def runScript (w : World) : World × Except Err Unit :=
  match w.siteDatabase with
  | .unreadable => (w, .error .ioError)
  | .malformed => (w, .error .syntaxError)
  | .json fullData =>
    match optimize fullData with
    | .error e => (w, .error e)
    | .ok optimizedData =>
      if w.writable then
        let w' := { w with siteDatabase := .json optimizedData }
        if w.rawExportPresent then (w', .ok ()) else (w', .error .ioError)
      else (w, .error .ioError)

/-! ## The example of the specification -/

def exampleInput : Json :=
  .obj [
    ("version", .str "1.0"),
    ("generatedAt", .str "t"),
    ("totalSites", .num 1),
    ("sites", .obj [
      ("example.com", .obj [
        ("rating", .str "A"),
        ("cookieCount", .num 5),
        ("hasBanner", .bool true),
        ("cookieStats", .obj [("tracking", .num 1), ("analytics", .num 2), ("essential", .num 2)]),
        ("bannerInfo", .obj [
          ("buttonCount", .num 3),
          ("hasAccept", .bool true),
          ("hasReject", .bool true),
          ("hasSettings", .bool false)])])])]

def exampleOutput : Json :=
  .obj [
    ("version", .str "1.0"),
    ("generatedAt", .str "t"),
    ("totalSites", .num 1),
    ("sites", .obj [
      ("example.com", .obj [
        ("rating", .str "A"),
        ("cookieCount", .num 5),
        ("hasBanner", .bool true),
        ("stats", .obj [("tracking", .num 1), ("analytics", .num 2), ("essential", .num 2)]),
        ("banner", .obj [
          ("buttons", .num 3),
          ("hasAccept", .bool true),
          ("hasReject", .bool true),
          ("hasSettings", .bool false)])])])]

/-- Two sites of a sample database: one with a banner, an incomplete `bannerInfo`
and fields the projection drops, one without a banner. -/
def sampleSites : List (String × Json) := [
  ("google.de", .obj [
    ("rating", .str "B"),
    ("cookieCount", .num 12),
    ("hasBanner", .bool true),
    ("cookieStats", .obj [
      ("tracking", .num 4), ("analytics", .num 3), ("essential", .num 5), ("other", .num 9)]),
    ("bannerInfo", .obj [("buttonCount", .num 2), ("hasAccept", .bool true)]),
    ("cookies", .arr [.str "NID", .str "CONSENT"])]),
  ("bild.de", .obj [
    ("rating", .str "D"),
    ("cookieCount", .num 0),
    ("hasBanner", .bool false),
    ("cookieStats", .obj [("tracking", .num 0), ("analytics", .num 0), ("essential", .num 0)])])]

/-- A sample database whose `totalSites` differs from its number of sites. -/
def sampleInput : Json :=
  .obj [
    ("version", .str "2.1"),
    ("generatedAt", .str "2025-01-01T00:00:00Z"),
    ("totalSites", .num 7),
    ("sites", .obj sampleSites)]

/-- The document the script writes for `sampleInput`. -/
def sampleOutput : Json :=
  .obj [
    ("version", .str "2.1"),
    ("generatedAt", .str "2025-01-01T00:00:00Z"),
    ("totalSites", .num 7),
    ("sites", .obj [
      ("google.de", .obj [
        ("rating", .str "B"),
        ("cookieCount", .num 12),
        ("hasBanner", .bool true),
        ("stats", .obj [("tracking", .num 4), ("analytics", .num 3), ("essential", .num 5)]),
        ("banner", .obj [
          ("buttons", .num 2),
          ("hasAccept", .bool true),
          ("hasReject", .bool false),
          ("hasSettings", .bool false)])]),
      ("bild.de", .obj [
        ("rating", .str "D"),
        ("cookieCount", .num 0),
        ("hasBanner", .bool false),
        ("stats", .obj [("tracking", .num 0), ("analytics", .num 0), ("essential", .num 0)]),
        ("banner", .null)])])]

/-- A record with a banner and no `bannerInfo`. -/
def bareBannerRecord : Json :=
  .obj [
    ("rating", .str "C"),
    ("cookieCount", .num 3),
    ("hasBanner", .bool true),
    ("cookieStats", .obj [("tracking", .num 1), ("analytics", .num 1), ("essential", .num 1)])]

/-- A database with the single record `bareBannerRecord`. -/
def bareBannerInput : Json :=
  .obj [
    ("version", .str "1.0"),
    ("generatedAt", .str "t"),
    ("totalSites", .num 1),
    ("sites", .obj [("linkedin.com", bareBannerRecord)])]

/-- A document without `sites`. -/
def noSitesInput : Json :=
  .obj [("version", .str "1.0"), ("generatedAt", .str "t"), ("totalSites", .num 0)]

/-- A database whose second record has no `cookieStats`. -/
def brokenInput : Json :=
  .obj [
    ("version", .str "1.0"),
    ("generatedAt", .str "t"),
    ("totalSites", .num 2),
    ("sites", .obj [
      ("google.de", bareBannerRecord),
      ("bild.de", .obj [("rating", .str "D"), ("cookieCount", .num 0), ("hasBanner", .bool false)])])]

/-- A document whose only key in `sites` is `__proto__`. -/
def protoInput : Json :=
  .obj [
    ("version", .str "1.0"),
    ("generatedAt", .str "t"),
    ("totalSites", .num 1),
    ("sites", .obj [("__proto__", bareBannerRecord)])]

/-! ## Validity of an input, after the data model -/

/-- A record carries `cookieStats`: the property is there and is not `null`,
so that reading `data.cookieStats.tracking` does not throw. -/
def carriesCookieStats (data : Json) : Bool :=
  match optChain (some data) "cookieStats" with
  | none => false
  | some .null => false
  | some _ => true

/-- A record lacks `cookieStats`: reading `data.cookieStats` gives
`undefined` (or `data` itself is `null`). -/
def lacksCookieStats (data : Json) : Bool :=
  match optChain (some data) "cookieStats" with
  | none => true
  | some _ => false

/-- A valid `SiteDatabase` whose `sites` mapping is `sites`: a mapping of
domain strings to site records that each carry `cookieStats`. The string
`__proto__` is not a domain. The theorems that look a record up in `sites`
also take `(keys sites).Nodup`: `JSON.parse` keeps one property per key. -/
structure ValidDatabase (fullData : Json) (sites : List (String × Json)) : Prop where
  sites_eq : getProp (some fullData) "sites" = .ok (some (.obj sites))
  domains : "__proto__" ∉ keys sites
  records : ∀ p ∈ sites, carriesCookieStats p.2 = true

/-- The optional fields of `bannerInfo` have the types of the data model where
they are present: `buttonCount` is a number, the three flags are booleans. -/
def BannerInfoTyped (bannerInfo : Option Json) : Prop :=
  (∀ v, optChain bannerInfo "buttonCount" = some v → ∃ n, v = .num n) ∧
  (∀ v, optChain bannerInfo "hasAccept" = some v → ∃ b, v = .bool b) ∧
  (∀ v, optChain bannerInfo "hasReject" = some v → ∃ b, v = .bool b) ∧
  (∀ v, optChain bannerInfo "hasSettings" = some v → ∃ b, v = .bool b)

/-- The fields of an input record that the projection reads. -/
def projectedFields (data : Json) : List (Option Json) := [
  optChain (some data) "rating",
  optChain (some data) "cookieCount",
  optChain (some data) "hasBanner",
  optChain (optChain (some data) "cookieStats") "tracking",
  optChain (optChain (some data) "cookieStats") "analytics",
  optChain (optChain (some data) "cookieStats") "essential",
  optChain (optChain (some data) "bannerInfo") "buttonCount",
  optChain (optChain (some data) "bannerInfo") "hasAccept",
  optChain (optChain (some data) "bannerInfo") "hasReject",
  optChain (optChain (some data) "bannerInfo") "hasSettings"]

/-- The record has the required fields of the data model: `rating`,
`cookieCount`, `hasBanner` and the three counts of `cookieStats`. -/
def hasRequiredFields (data : Json) : Bool :=
  (optChain (some data) "rating").isSome &&
  (optChain (some data) "cookieCount").isSome &&
  (optChain (some data) "hasBanner").isSome &&
  (optChain (optChain (some data) "cookieStats") "tracking").isSome &&
  (optChain (optChain (some data) "cookieStats") "analytics").isSome &&
  (optChain (optChain (some data) "cookieStats") "essential").isSome

/-- The compact record of a site record, written with `?.` reads. -/
def compactRecord (data : Json) : Json :=
  mkObj [
    ("rating", optChain (some data) "rating"),
    ("cookieCount", optChain (some data) "cookieCount"),
    ("hasBanner", optChain (some data) "hasBanner"),
    ("stats", some (mkObj [
      ("tracking", optChain (optChain (some data) "cookieStats") "tracking"),
      ("analytics", optChain (optChain (some data) "cookieStats") "analytics"),
      ("essential", optChain (optChain (some data) "cookieStats") "essential")])),
    ("banner", some (bannerOf (optChain (some data) "hasBanner")
      (optChain (some data) "bannerInfo")))]

/-- The output document has the record `record` under the key `domain`. -/
def OutputRecord (fullData : Json) (domain : String) (record : Json) : Prop :=
  ∃ out outSites, optimize fullData = .ok out ∧
    getProp (some out) "sites" = .ok (some (.obj outSites)) ∧
    ownProp domain outSites = some record

/-- The document built when the loop ends with `outSites`. -/
def optimizedDoc (fullData : Json) (outSites : List (String × Json)) : Json :=
  mkObj [
    ("version", optChain (some fullData) "version"),
    ("generatedAt", optChain (some fullData) "generatedAt"),
    ("totalSites", optChain (some fullData) "totalSites"),
    ("sites", some (.obj outSites))]

/-! ## Lemmas on the projection of one record -/

theorem projectSite_of_carries (data : Json) (h : carriesCookieStats data = true) :
    projectSite data = .ok (compactRecord data) := by
  cases data <;> simp [carriesCookieStats, optChain] at h
  rename_i props
  cases hcs : ownProp "cookieStats" props with
  | none => simp [hcs] at h
  | some cs =>
    cases cs <;> simp [hcs] at h <;>
      simp [projectSite, compactRecord, getProp, optChain, hcs, bind, Except.bind, pure, Except.pure]

theorem projectSite_of_lacks (data : Json) (h : lacksCookieStats data = true) :
    projectSite data = .error .typeError := by
  cases data <;> simp [lacksCookieStats, optChain] at h <;>
    simp [projectSite, getProp, bind, Except.bind, pure, Except.pure]
  rename_i props
  cases hcs : ownProp "cookieStats" props with
  | none => simp
  | some cs => simp [hcs] at h

theorem projectSite_of_not_carries (data : Json) (h : carriesCookieStats data = false) :
    projectSite data = .error .typeError := by
  cases data <;> try rfl
  rename_i props
  simp only [carriesCookieStats, optChain] at h
  cases hcs : ownProp "cookieStats" props with
  | none => simp [projectSite, getProp, hcs, bind, Except.bind]
  | some cs =>
    cases cs <;> simp [hcs] at h
    simp [projectSite, getProp, hcs, bind, Except.bind]

theorem projectSite_error (data : Json) (e : Err) (h : projectSite data = .error e) :
    e = .typeError := by
  cases hc : carriesCookieStats data
  · rw [projectSite_of_not_carries data hc] at h
    cases h
    rfl
  · rw [projectSite_of_carries data hc] at h
    cases h

theorem projectSite_ok (data record : Json) (h : projectSite data = .ok record) :
    record = compactRecord data := by
  cases hc : carriesCookieStats data
  · rw [projectSite_of_not_carries data hc] at h
    cases h
  · rw [projectSite_of_carries data hc] at h
    cases h
    rfl

/-! ## Lemmas on the loop and on the document -/

theorem mem_keys_assignSite (sites : List (String × Json)) (domain : String) (record : Json)
    (hd : domain ≠ "__proto__") (k : String) :
    k ∈ keys (assignSite sites domain record) ↔ k ∈ keys sites ∨ k = domain := by
  unfold assignSite
  rw [if_neg hd]
  split
  · rename_i hmem
    have hk : keys (sites.map fun p => if p.1 = domain then (p.1, record) else p) = keys sites := by
      unfold keys
      rw [List.map_map]
      apply List.map_congr_left
      intro p _
      by_cases hp : p.1 = domain <;> simp [hp]
    rw [hk]
    constructor
    · exact Or.inl
    · rintro (h | h)
      · exact h
      · exact h ▸ hmem
  · simp [keys]

theorem mem_assignSite (sites : List (String × Json)) (domain : String) (record : Json)
    (q : String × Json) (hq : q ∈ assignSite sites domain record) :
    q ∈ sites ∨ q.2 = record := by
  unfold assignSite at hq
  split at hq
  · exact Or.inl hq
  · split at hq
    · obtain ⟨p, hp, rfl⟩ := List.mem_map.mp hq
      by_cases hpd : p.1 = domain
      · simp [hpd]
      · simp only [if_neg hpd]
        exact Or.inl hp
    · rcases List.mem_append.mp hq with h | h
      · exact Or.inl h
      · simp only [List.mem_singleton] at h
        exact Or.inr (by rw [h])

theorem assignSite_fresh (sites : List (String × Json)) (domain : String) (record : Json)
    (hd : domain ≠ "__proto__") (hf : domain ∉ keys sites) :
    assignSite sites domain record = sites ++ [(domain, record)] := by
  unfold assignSite
  rw [if_neg hd, if_neg hf]

theorem projectAll_keys (entries : List (String × Json)) :
    ∀ acc : List (String × Json),
      (∀ p ∈ entries, carriesCookieStats p.2 = true) → "__proto__" ∉ keys entries →
      ∃ out, projectAll entries acc = .ok out ∧
        ∀ k, k ∈ keys out ↔ k ∈ keys acc ∨ k ∈ keys entries := by
  induction entries with
  | nil => intro acc _ _; exact ⟨acc, rfl, by simp [keys]⟩
  | cons p rest ih =>
    intro acc hrec hdom
    obtain ⟨domain, data⟩ := p
    have hdata : carriesCookieStats data = true := hrec (domain, data) (List.mem_cons_self _ _)
    have hne : domain ≠ "__proto__" := by
      intro h; apply hdom; simp [keys, h]
    have hrest : "__proto__" ∉ keys rest := by
      intro h; apply hdom; simp only [keys, List.map_cons, List.mem_cons]; exact Or.inr h
    obtain ⟨out, hout, hkeys⟩ := ih (assignSite acc domain (compactRecord data))
      (fun q hq => hrec q (List.mem_cons_of_mem _ hq)) hrest
    refine ⟨out, ?_, ?_⟩
    · simp only [projectAll, projectSite_of_carries data hdata]
      exact hout
    · intro k
      rw [hkeys k, mem_keys_assignSite acc domain _ hne k]
      simp only [keys, List.map_cons, List.mem_cons]
      tauto

theorem projectAll_map (entries : List (String × Json)) :
    ∀ acc : List (String × Json),
      (∀ p ∈ entries, carriesCookieStats p.2 = true) → "__proto__" ∉ keys entries →
      (keys entries).Nodup → (∀ k ∈ keys entries, k ∉ keys acc) →
      projectAll entries acc = .ok (acc ++ entries.map fun p => (p.1, compactRecord p.2)) := by
  induction entries with
  | nil => intro acc _ _ _ _; simp [projectAll]
  | cons p rest ih =>
    intro acc hrec hdom hnd hfresh
    obtain ⟨domain, data⟩ := p
    have hdata : carriesCookieStats data = true := hrec (domain, data) (List.mem_cons_self _ _)
    have hne : domain ≠ "__proto__" := by
      intro h; apply hdom; simp [keys, h]
    have hrest : "__proto__" ∉ keys rest := by
      intro h; apply hdom; simp only [keys, List.map_cons, List.mem_cons]; exact Or.inr h
    have hnd2 : domain ∉ keys rest ∧ (keys rest).Nodup := by
      simpa [keys] using hnd
    have hf : domain ∉ keys acc := hfresh domain (by simp [keys])
    simp only [projectAll, projectSite_of_carries data hdata]
    rw [assignSite_fresh acc domain _ hne hf,
      ih (acc ++ [(domain, compactRecord data)]) (fun q hq => hrec q (List.mem_cons_of_mem _ hq))
        hrest hnd2.2]
    · simp
    · intro k hk
      have hk2 : k ∉ keys acc := hfresh k (by
        simp only [keys, List.map_cons, List.mem_cons]; exact Or.inr hk)
      have hk3 : k ≠ domain := fun h => hnd2.1 (h ▸ hk)
      simp only [keys, List.map_append, List.mem_append, List.map_cons, List.map_nil,
        List.mem_singleton]
      rintro (h | h)
      · exact hk2 h
      · exact hk3 h

theorem projectAll_fails (entries : List (String × Json)) :
    ∀ acc : List (String × Json),
      (∃ p ∈ entries, lacksCookieStats p.2 = true) →
      projectAll entries acc = .error .typeError := by
  induction entries with
  | nil => intro acc h; simp at h
  | cons p rest ih =>
    intro acc h
    obtain ⟨domain, data⟩ := p
    simp only [projectAll]
    cases hp : projectSite data with
    | error e => simp only; rw [projectSite_error data e hp]
    | ok record =>
      simp only
      apply ih
      obtain ⟨q, hq, hl⟩ := h
      rcases List.mem_cons.mp hq with h1 | h1
      · subst h1
        rw [projectSite_of_lacks _ hl] at hp
        cases hp
      · exact ⟨q, h1, hl⟩

theorem obj_of_sites (fullData : Json) (sitesVal : Json)
    (h : getProp (some fullData) "sites" = .ok (some sitesVal)) :
    ∃ props, fullData = .obj props ∧ ownProp "sites" props = some sitesVal := by
  cases fullData <;> simp [getProp] at h
  exact ⟨_, rfl, h⟩

theorem optimize_obj (props : List (String × Json)) :
    optimize (.obj props) =
      match objectEntries (ownProp "sites" props) with
      | .error e => .error e
      | .ok entries =>
        match projectAll entries [] with
        | .error e => .error e
        | .ok outSites => .ok (optimizedDoc (.obj props) outSites) := by
  simp only [optimize, getProp, bind, Except.bind, pure, Except.pure, optimizedDoc, optChain]
  cases objectEntries (ownProp "sites" props) with
  | error e => rfl
  | ok entries =>
    dsimp only
    cases projectAll entries [] <;> rfl

theorem optimizedDoc_props (fullData : Json) (outSites : List (String × Json)) :
    ∃ props, optimizedDoc fullData outSites = .obj props ∧
      ownProp "version" props = optChain (some fullData) "version" ∧
      ownProp "generatedAt" props = optChain (some fullData) "generatedAt" ∧
      ownProp "totalSites" props = optChain (some fullData) "totalSites" ∧
      ownProp "sites" props = some (.obj outSites) := by
  refine ⟨_, rfl, ?_⟩
  cases optChain (some fullData) "version" <;> cases optChain (some fullData) "generatedAt" <;>
    cases optChain (some fullData) "totalSites" <;> simp [ownProp]

theorem optimize_of_projectAll (fullData : Json) (sites outSites : List (String × Json))
    (hs : getProp (some fullData) "sites" = .ok (some (.obj sites)))
    (hp : projectAll sites [] = .ok outSites) :
    optimize fullData = .ok (optimizedDoc fullData outSites) := by
  obtain ⟨props, rfl, hprops⟩ := obj_of_sites fullData _ hs
  rw [optimize_obj, hprops]
  simp only [objectEntries, hp]

theorem optimize_of_projectAll_error (fullData : Json) (sites : List (String × Json)) (e : Err)
    (hs : getProp (some fullData) "sites" = .ok (some (.obj sites)))
    (hp : projectAll sites [] = .error e) :
    optimize fullData = .error e := by
  obtain ⟨props, rfl, hprops⟩ := obj_of_sites fullData _ hs
  rw [optimize_obj, hprops]
  simp only [objectEntries, hp]

theorem getProp_sites_optimizedDoc (fullData : Json) (outSites : List (String × Json)) :
    getProp (some (optimizedDoc fullData outSites)) "sites" = .ok (some (.obj outSites)) := by
  obtain ⟨props, hprops, _, _, _, h⟩ := optimizedDoc_props fullData outSites
  rw [hprops]
  simp only [getProp, h]

theorem ownProp_map_of_mem (sites : List (String × Json)) (f : Json → Json)
    (hu : (keys sites).Nodup) (d : String) (data : Json) (hd : (d, data) ∈ sites) :
    ownProp d (sites.map fun p => (p.1, f p.2)) = some (f data) := by
  induction sites with
  | nil => simp at hd
  | cons p rest ih =>
    obtain ⟨k, v⟩ := p
    have hnd : k ∉ keys rest ∧ (keys rest).Nodup := by simpa [keys] using hu
    rcases List.mem_cons.mp hd with h | h
    · cases h
      simp [ownProp]
    · have hne : k ≠ d := by
        intro hkd
        apply hnd.1
        rw [hkd]
        exact List.mem_map_of_mem Prod.fst h
      simp only [List.map_cons, ownProp, if_neg hne]
      exact ih hnd.2 h

theorem outputRecord_of_valid (fullData : Json) (sites : List (String × Json))
    (hv : ValidDatabase fullData sites) (hu : (keys sites).Nodup)
    (d : String) (data : Json) (hd : (d, data) ∈ sites) :
    OutputRecord fullData d (compactRecord data) := by
  have hp := projectAll_map sites [] hv.records hv.domains hu (by simp [keys])
  refine ⟨_, _, optimize_of_projectAll fullData sites _ hv.sites_eq hp,
    getProp_sites_optimizedDoc _ _, ?_⟩
  simpa using ownProp_map_of_mem sites compactRecord hu d data hd

theorem compactRecord_props (data : Json) :
    ∃ props, compactRecord data = .obj props ∧
      ownProp "rating" props = optChain (some data) "rating" ∧
      ownProp "cookieCount" props = optChain (some data) "cookieCount" ∧
      ownProp "hasBanner" props = optChain (some data) "hasBanner" ∧
      ownProp "stats" props = some (mkObj [
        ("tracking", optChain (optChain (some data) "cookieStats") "tracking"),
        ("analytics", optChain (optChain (some data) "cookieStats") "analytics"),
        ("essential", optChain (optChain (some data) "cookieStats") "essential")]) ∧
      ownProp "banner" props = some (bannerOf (optChain (some data) "hasBanner")
        (optChain (some data) "bannerInfo")) ∧
      ownProp "cookieStats" props = none := by
  refine ⟨_, rfl, ?_⟩
  cases optChain (some data) "rating" <;> cases optChain (some data) "cookieCount" <;>
    cases optChain (some data) "hasBanner" <;> simp [ownProp]

theorem stats_props (t a e : Option Json) :
    ∃ props, mkObj [("tracking", t), ("analytics", a), ("essential", e)] = .obj props ∧
      ownProp "tracking" props = t ∧ ownProp "analytics" props = a ∧
      ownProp "essential" props = e := by
  refine ⟨_, rfl, ?_⟩
  cases t <;> cases a <;> cases e <;> simp [ownProp]

theorem getProp_of_carries (data : Json) (h : carriesCookieStats data = true) (k : String) :
    getProp (some data) k = .ok (optChain (some data) k) := by
  cases data <;> simp [carriesCookieStats, optChain] at h
  rfl

theorem lacks_compactRecord (data : Json) : lacksCookieStats (compactRecord data) = true := by
  obtain ⟨props, hprops, _, _, _, _, _, h⟩ := compactRecord_props data
  rw [hprops]
  simp [lacksCookieStats, optChain, h]

theorem projectAll_lacks (entries : List (String × Json)) :
    ∀ acc out : List (String × Json),
      (∀ q ∈ acc, lacksCookieStats q.2 = true) → projectAll entries acc = .ok out →
      ∀ q ∈ out, lacksCookieStats q.2 = true := by
  induction entries with
  | nil =>
    intro acc out hacc h
    simp only [projectAll] at h
    cases h
    exact hacc
  | cons p rest ih =>
    intro acc out hacc h
    obtain ⟨domain, data⟩ := p
    simp only [projectAll] at h
    cases hp : projectSite data with
    | error e => rw [hp] at h; cases h
    | ok record =>
      rw [hp] at h
      refine ih (assignSite acc domain record) out ?_ h
      intro q hq
      rcases mem_assignSite acc domain record q hq with h1 | h1
      · exact hacc q h1
      · rw [h1, projectSite_ok data record hp]
        exact lacks_compactRecord data

theorem optimizedDoc_idem (fullData : Json) (outSites : List (String × Json)) :
    optimizedDoc (optimizedDoc fullData outSites) outSites = optimizedDoc fullData outSites := by
  obtain ⟨props, hprops, hv, hg, ht, _⟩ := optimizedDoc_props fullData outSites
  have h : ∀ k, optChain (some (optimizedDoc fullData outSites)) k = ownProp k props := by
    intro k; rw [hprops]; rfl
  unfold optimizedDoc
  unfold optimizedDoc at h
  rw [h, h, h, hv, hg, ht]

theorem optimize_fails_of_no_sites (fullData : Json)
    (h : optChain (some fullData) "sites" = none) :
    optimize fullData = .error .typeError := by
  cases fullData <;> try rfl
  rename_i props
  simp only [optChain] at h
  rw [optimize_obj, h]
  rfl

theorem runScript_of_error (w : World) (fullData : Json) (e : Err)
    (hdb : w.siteDatabase = .json fullData) (h : optimize fullData = .error e) :
    runScript w = (w, .error e) := by
  simp only [runScript, hdb, h]

theorem compactRecord_congr (data data' : Json)
    (h : projectedFields data' = projectedFields data) :
    compactRecord data' = compactRecord data := by
  simp only [projectedFields, List.cons.injEq, and_true] at h
  obtain ⟨h1, h2, h3, h4, h5, h6, h7, h8, h9, h10⟩ := h
  simp only [compactRecord, bannerOf, h1, h2, h3, h4, h5, h6, h7, h8, h9, h10]

theorem orDefault_num (v : Option Json) (h : ∀ x, v = some x → ∃ n, x = .num n) :
    orDefault v (.num 0) = v.getD (.num 0) := by
  cases v with
  | none => rfl
  | some x =>
    obtain ⟨n, rfl⟩ := h x rfl
    by_cases hn : n = 0 <;> simp [orDefault, truthy, hn]

theorem orDefault_bool (v : Option Json) (h : ∀ x, v = some x → ∃ b, x = .bool b) :
    orDefault v (.bool false) = v.getD (.bool false) := by
  cases v with
  | none => rfl
  | some x =>
    obtain ⟨b, rfl⟩ := h x rfl
    cases b <;> simp [orDefault, truthy]

/-- The key `__proto__` is the one key the loop does not store: the output of
`protoInput` has an empty `sites`. -/
theorem proto_key_not_stored :
    optimize protoInput = .ok (.obj [
      ("version", .str "1.0"),
      ("generatedAt", .str "t"),
      ("totalSites", .num 1),
      ("sites", .obj [])]) :=
  rfl

/-! ## The claims -/

/-- C1. Key-set preservation: for every valid input database the run produces
an output document whose `sites` has exactly the keys of the input `sites`. -/
theorem key_set_preservation (fullData : Json) (sites : List (String × Json))
    (hv : ValidDatabase fullData sites) :
    ∃ out outSites, optimize fullData = .ok out ∧
      getProp (some out) "sites" = .ok (some (.obj outSites)) ∧
      ∀ d, d ∈ keys outSites ↔ d ∈ keys sites := by
  obtain ⟨outSites, hp, hk⟩ := projectAll_keys sites [] hv.records hv.domains
  refine ⟨_, outSites, optimize_of_projectAll fullData sites outSites hv.sites_eq hp,
    getProp_sites_optimizedDoc _ _, ?_⟩
  intro d
  rw [hk d]
  simp [keys]

/-- Witness of C1 on the sample database. -/
theorem key_set_preservation_witness :
    ValidDatabase sampleInput sampleSites ∧
    ∃ out outSites, optimize sampleInput = .ok out ∧
      getProp (some out) "sites" = .ok (some (.obj outSites)) ∧
      ∀ d, d ∈ keys outSites ↔ d ∈ keys sampleSites :=
  ⟨⟨rfl, by decide, by decide⟩,
    key_set_preservation sampleInput sampleSites ⟨rfl, by decide, by decide⟩⟩

/-- C2. Banner null-iff-flag: for every record of a valid input whose
`hasBanner` is a boolean, the output record's `banner` is `null` if and only
if `hasBanner` is `false`. -/
theorem banner_null_iff_flag (fullData : Json) (sites : List (String × Json))
    (hv : ValidDatabase fullData sites) (hu : (keys sites).Nodup)
    (d : String) (data : Json) (hd : (d, data) ∈ sites)
    (b : Bool) (hb : getProp (some data) "hasBanner" = .ok (some (.bool b))) :
    ∃ record, OutputRecord fullData d record ∧
      (getProp (some record) "banner" = .ok (some .null) ↔ b = false) := by
  refine ⟨compactRecord data, outputRecord_of_valid fullData sites hv hu d data hd, ?_⟩
  have hc := hv.records (d, data) hd
  rw [getProp_of_carries data hc] at hb
  obtain ⟨props, hprops, _, _, _, _, hbanner, _⟩ := compactRecord_props data
  have hb2 : optChain (some data) "hasBanner" = some (.bool b) := by
    simpa using hb
  rw [hprops]
  simp only [getProp, hbanner, hb2]
  cases b <;> simp [bannerOf, truthy, mkObj]

/-- Witness of C2 on the sample database, at a record with a banner. -/
theorem banner_null_iff_flag_witness :
    ∃ record, OutputRecord sampleInput "google.de" record ∧
      (getProp (some record) "banner" = .ok (some .null) ↔ true = false) :=
  banner_null_iff_flag sampleInput sampleSites ⟨rfl, by decide, by decide⟩ (by decide)
    "google.de" _ (List.mem_cons_self _ _) true rfl

/-- C3. Field fidelity: for every record of a valid input, the output record
has the input's `rating` and `cookieCount`, and its `stats` has the
`tracking`, `analytics` and `essential` of the input's `cookieStats`. -/
theorem field_fidelity (fullData : Json) (sites : List (String × Json))
    (hv : ValidDatabase fullData sites) (hu : (keys sites).Nodup)
    (d : String) (data : Json) (hd : (d, data) ∈ sites) :
    ∃ record stats cookieStats, OutputRecord fullData d record ∧
      getProp (some record) "rating" = getProp (some data) "rating" ∧
      getProp (some record) "cookieCount" = getProp (some data) "cookieCount" ∧
      getProp (some record) "stats" = .ok (some stats) ∧
      getProp (some data) "cookieStats" = .ok (some cookieStats) ∧
      getProp (some stats) "tracking" = getProp (some cookieStats) "tracking" ∧
      getProp (some stats) "analytics" = getProp (some cookieStats) "analytics" ∧
      getProp (some stats) "essential" = getProp (some cookieStats) "essential" := by
  have hc := hv.records (d, data) hd
  obtain ⟨props, hprops, hrating, hcount, _, hstats, _, _⟩ := compactRecord_props data
  obtain ⟨sprops, hsprops, ht, ha, he⟩ := stats_props
    (optChain (optChain (some data) "cookieStats") "tracking")
    (optChain (optChain (some data) "cookieStats") "analytics")
    (optChain (optChain (some data) "cookieStats") "essential")
  have hcs : ∃ cs, optChain (some data) "cookieStats" = some cs ∧ cs ≠ .null := by
    unfold carriesCookieStats at hc
    cases hcs : optChain (some data) "cookieStats" with
    | none => simp [hcs] at hc
    | some cs => cases cs <;> simp [hcs] at hc <;> exact ⟨_, rfl, by simp⟩
  obtain ⟨cs, hcs, hnull⟩ := hcs
  have hget : ∀ k, getProp (some cs) k = .ok (optChain (some cs) k) := by
    intro k
    cases cs <;> first | rfl | exact absurd rfl hnull
  refine ⟨compactRecord data, .obj sprops, cs,
    outputRecord_of_valid fullData sites hv hu d data hd, ?_, ?_, ?_, ?_, ?_, ?_, ?_⟩
  · rw [getProp_of_carries data hc, hprops]; simp only [getProp, hrating]
  · rw [getProp_of_carries data hc, hprops]; simp only [getProp, hcount]
  · rw [hprops]; simp only [getProp, hstats, hsprops]
  · rw [getProp_of_carries data hc, hcs]
  · rw [hget]; simp only [getProp, ht, hcs]
  · rw [hget]; simp only [getProp, ha, hcs]
  · rw [hget]; simp only [getProp, he, hcs]

/-- Witness of C3 on the sample database. -/
theorem field_fidelity_witness :
    ∃ record stats cookieStats, OutputRecord sampleInput "bild.de" record ∧
      getProp (some record) "rating" = .ok (some (.str "D")) ∧
      getProp (some record) "cookieCount" = .ok (some (.num 0)) ∧
      getProp (some record) "stats" = .ok (some stats) ∧
      getProp (some (.obj [
        ("rating", .str "D"),
        ("cookieCount", .num 0),
        ("hasBanner", .bool false),
        ("cookieStats", .obj [("tracking", .num 0), ("analytics", .num 0),
          ("essential", .num 0)])])) "cookieStats" = .ok (some cookieStats) ∧
      getProp (some stats) "tracking" = getProp (some cookieStats) "tracking" ∧
      getProp (some stats) "analytics" = getProp (some cookieStats) "analytics" ∧
      getProp (some stats) "essential" = getProp (some cookieStats) "essential" :=
  field_fidelity sampleInput sampleSites ⟨rfl, by decide, by decide⟩ (by decide)
    "bild.de" _ (List.mem_cons_of_mem _ (List.mem_cons_self _ _))

/-- C4. Banner default substitution: for every record of a valid input with
`hasBanner` true, the output `banner` has `buttons`, `hasAccept`, `hasReject`
and `hasSettings` equal to the `bannerInfo` field where it is present and to
`0` or `false` where it is missing; without `bannerInfo` the banner is
`{buttons: 0, hasAccept: false, hasReject: false, hasSettings: false}`. -/
theorem banner_default_substitution (fullData : Json) (sites : List (String × Json))
    (hv : ValidDatabase fullData sites) (hu : (keys sites).Nodup)
    (d : String) (data : Json) (hd : (d, data) ∈ sites)
    (hb : getProp (some data) "hasBanner" = .ok (some (.bool true)))
    (ht : BannerInfoTyped (optChain (some data) "bannerInfo")) :
    ∃ record, OutputRecord fullData d record ∧
      getProp (some record) "banner" = .ok (some (.obj [
        ("buttons",
          (optChain (optChain (some data) "bannerInfo") "buttonCount").getD (.num 0)),
        ("hasAccept",
          (optChain (optChain (some data) "bannerInfo") "hasAccept").getD (.bool false)),
        ("hasReject",
          (optChain (optChain (some data) "bannerInfo") "hasReject").getD (.bool false)),
        ("hasSettings",
          (optChain (optChain (some data) "bannerInfo") "hasSettings").getD (.bool false))])) ∧
      (getProp (some data) "bannerInfo" = .ok none →
        getProp (some record) "banner" = .ok (some (.obj [
          ("buttons", .num 0),
          ("hasAccept", .bool false),
          ("hasReject", .bool false),
          ("hasSettings", .bool false)]))) := by
  have hc := hv.records (d, data) hd
  rw [getProp_of_carries data hc] at hb
  have hb2 : optChain (some data) "hasBanner" = some (.bool true) := by
    simpa using hb
  obtain ⟨props, hprops, _, _, _, _, hbanner, _⟩ := compactRecord_props data
  obtain ⟨h1, h2, h3, h4⟩ := ht
  have hmain : getProp (some (compactRecord data)) "banner" = .ok (some (.obj [
      ("buttons",
        (optChain (optChain (some data) "bannerInfo") "buttonCount").getD (.num 0)),
      ("hasAccept",
        (optChain (optChain (some data) "bannerInfo") "hasAccept").getD (.bool false)),
      ("hasReject",
        (optChain (optChain (some data) "bannerInfo") "hasReject").getD (.bool false)),
      ("hasSettings",
        (optChain (optChain (some data) "bannerInfo") "hasSettings").getD (.bool false))])) := by
    rw [hprops]
    simp only [getProp, hbanner, hb2, bannerOf, truthy, if_true]
    rw [orDefault_num _ h1, orDefault_bool _ h2, orDefault_bool _ h3, orDefault_bool _ h4]
    rfl
  refine ⟨compactRecord data, outputRecord_of_valid fullData sites hv hu d data hd, hmain, ?_⟩
  intro hbi
  rw [getProp_of_carries data hc] at hbi
  have hbi2 : optChain (some data) "bannerInfo" = none := by
    simpa using hbi
  rw [hmain, hbi2]
  rfl

/-- Witness of C4: a record with an incomplete `bannerInfo`, and a record with a
banner and no `bannerInfo`. -/
theorem banner_default_substitution_witness :
    (∃ record, OutputRecord sampleInput "google.de" record ∧
      getProp (some record) "banner" = .ok (some (.obj [
        ("buttons", .num 2),
        ("hasAccept", .bool true),
        ("hasReject", .bool false),
        ("hasSettings", .bool false)]))) ∧
    (∃ record, OutputRecord bareBannerInput "linkedin.com" record ∧
      getProp (some record) "banner" = .ok (some (.obj [
        ("buttons", .num 0),
        ("hasAccept", .bool false),
        ("hasReject", .bool false),
        ("hasSettings", .bool false)]))) := by
  constructor
  · obtain ⟨record, h1, h2, _⟩ := banner_default_substitution sampleInput sampleSites
      ⟨rfl, by decide, by decide⟩ (by decide) "google.de" _ (List.mem_cons_self _ _) rfl
      (by refine ⟨?_, ?_, ?_, ?_⟩ <;> intro v h <;> cases h <;> exact ⟨_, rfl⟩)
    exact ⟨record, h1, h2⟩
  · obtain ⟨record, h1, _, h3⟩ := banner_default_substitution bareBannerInput
      [("linkedin.com", bareBannerRecord)] ⟨rfl, by decide, by decide⟩ (by decide)
      "linkedin.com" _ (List.mem_cons_self _ _) rfl
      (by refine ⟨?_, ?_, ?_, ?_⟩ <;> intro v h <;> cases h)
    exact ⟨record, h1, h3 rfl⟩

/-- C5. Top-level passthrough: a valid input has an output document, and the
output document of any input has the input's `version`, `generatedAt` and
`totalSites`; `totalSites` is copied, not recomputed. -/
theorem top_level_passthrough (fullData : Json) :
    (∀ sites, ValidDatabase fullData sites → ∃ out, optimize fullData = .ok out) ∧
    ∀ out, optimize fullData = .ok out →
      getProp (some out) "version" = getProp (some fullData) "version" ∧
      getProp (some out) "generatedAt" = getProp (some fullData) "generatedAt" ∧
      getProp (some out) "totalSites" = getProp (some fullData) "totalSites" := by
  constructor
  · intro sites hv
    obtain ⟨outSites, hp, _⟩ := projectAll_keys sites [] hv.records hv.domains
    exact ⟨_, optimize_of_projectAll fullData sites outSites hv.sites_eq hp⟩
  · intro out h
    cases fullData
    case obj props =>
      rw [optimize_obj] at h
      split at h
      · cases h
      · split at h
        · cases h
        · rename_i outSites _
          cases h
          obtain ⟨oprops, hoprops, hv, hg, ht, _⟩ := optimizedDoc_props (.obj props) outSites
          rw [hoprops]
          simp only [getProp, hv, hg, ht, optChain, and_self]
    all_goals cases h

/-- Witness of C5 on the sample database, whose `totalSites` is 7 for two
sites: the output keeps 7. -/
theorem top_level_passthrough_witness :
    optimize sampleInput = .ok sampleOutput ∧
    getProp (some sampleOutput) "version" = .ok (some (.str "2.1")) ∧
    getProp (some sampleOutput) "generatedAt" = .ok (some (.str "2025-01-01T00:00:00Z")) ∧
    getProp (some sampleOutput) "totalSites" = .ok (some (.num 7)) :=
  ⟨rfl, (top_level_passthrough sampleInput).2 sampleOutput rfl⟩

/-- C6. End-to-end example: the transformation of the example document is
exactly the expected document, and a run over it writes that document. -/
theorem end_to_end_example :
    optimize exampleInput = .ok exampleOutput ∧
    runScript ⟨.json exampleInput, true, true⟩ = (⟨.json exampleOutput, true, true⟩, .ok ()) :=
  ⟨rfl, rfl⟩

/-- C7. Compact output shape: for every record of a valid input that has the
required fields, the output record has exactly the fields `rating`,
`cookieCount`, `hasBanner`, `stats`, `banner`, its `stats` has exactly
`tracking`, `analytics`, `essential`, and every input record that agrees on
the projected fields is projected to the same output record. -/
theorem compact_output_shape (fullData : Json) (sites : List (String × Json))
    (hv : ValidDatabase fullData sites) (hu : (keys sites).Nodup)
    (d : String) (data : Json) (hd : (d, data) ∈ sites)
    (hr : hasRequiredFields data = true) :
    ∃ record props statsProps, OutputRecord fullData d record ∧
      record = .obj props ∧
      keys props = ["rating", "cookieCount", "hasBanner", "stats", "banner"] ∧
      ownProp "stats" props = some (.obj statsProps) ∧
      keys statsProps = ["tracking", "analytics", "essential"] ∧
      ∀ data', carriesCookieStats data' = true →
        projectedFields data' = projectedFields data → projectSite data' = .ok record := by
  simp only [hasRequiredFields, Bool.and_eq_true, Option.isSome_iff_exists] at hr
  obtain ⟨⟨⟨⟨⟨⟨r, hr1⟩, ⟨c, hr2⟩⟩, ⟨b, hr3⟩⟩, ⟨t, hr4⟩⟩, ⟨a, hr5⟩⟩, ⟨e, hr6⟩⟩ := hr
  refine ⟨compactRecord data,
    [("rating", r), ("cookieCount", c), ("hasBanner", b),
      ("stats", .obj [("tracking", t), ("analytics", a), ("essential", e)]),
      ("banner", bannerOf (optChain (some data) "hasBanner") (optChain (some data) "bannerInfo"))],
    [("tracking", t), ("analytics", a), ("essential", e)],
    outputRecord_of_valid fullData sites hv hu d data hd, ?_, ?_, ?_, ?_, ?_⟩
  · simp only [compactRecord, mkObj, hr1, hr2, hr3, hr4, hr5, hr6]
    rfl
  · rfl
  · rfl
  · rfl
  · intro data' hc hf
    rw [projectSite_of_carries data' hc, compactRecord_congr data data' hf]

/-- Witness of C7 on the sample database: the record of `google.de` drops
`cookies`, `bannerInfo` and `cookieStats.other`. -/
theorem compact_output_shape_witness :
    ∃ record props statsProps, OutputRecord sampleInput "google.de" record ∧
      record = .obj props ∧
      keys props = ["rating", "cookieCount", "hasBanner", "stats", "banner"] ∧
      ownProp "stats" props = some (.obj statsProps) ∧
      keys statsProps = ["tracking", "analytics", "essential"] ∧
      ∀ data', carriesCookieStats data' = true →
        projectedFields data' = projectedFields (.obj [
          ("rating", .str "B"),
          ("cookieCount", .num 12),
          ("hasBanner", .bool true),
          ("cookieStats", .obj [
            ("tracking", .num 4), ("analytics", .num 3), ("essential", .num 5),
            ("other", .num 9)]),
          ("bannerInfo", .obj [("buttonCount", .num 2), ("hasAccept", .bool true)]),
          ("cookies", .arr [.str "NID", .str "CONSENT"])]) →
        projectSite data' = .ok record :=
  compact_output_shape sampleInput sampleSites ⟨rfl, by decide, by decide⟩ (by decide)
    "google.de" _ (List.mem_cons_self _ _) rfl

/-- C8. Missing `sites` is an error: for every parsed document without a
`sites` property the transformation throws, and the run ends with that error
and leaves the file system as it was. -/
theorem missing_sites_fails (fullData : Json)
    (h : optChain (some fullData) "sites" = none) :
    optimize fullData = .error .typeError ∧
    ∀ w : World, w.siteDatabase = .json fullData → runScript w = (w, .error .typeError) :=
  ⟨optimize_fails_of_no_sites fullData h,
    fun w hdb => runScript_of_error w fullData _ hdb (optimize_fails_of_no_sites fullData h)⟩

/-- Witness of C8 on a document that has no `sites`. -/
theorem missing_sites_fails_witness :
    optChain (some noSitesInput) "sites" = none ∧
    optimize noSitesInput = .error .typeError ∧
    ∀ w : World, w.siteDatabase = .json noSitesInput → runScript w = (w, .error .typeError) :=
  ⟨rfl, missing_sites_fails noSitesInput rfl⟩

/-- C9. Abort before persist: if a record of the input `sites` lacks
`cookieStats`, the transformation throws and the run leaves the database file
(and the rest of the file system) unchanged. -/
theorem abort_before_persist (w : World) (fullData : Json) (sites : List (String × Json))
    (hdb : w.siteDatabase = .json fullData)
    (hs : getProp (some fullData) "sites" = .ok (some (.obj sites)))
    (hl : ∃ p ∈ sites, lacksCookieStats p.2 = true) :
    optimize fullData = .error .typeError ∧ runScript w = (w, .error .typeError) := by
  have h : optimize fullData = .error .typeError :=
    optimize_of_projectAll_error fullData sites _ hs (projectAll_fails sites [] hl)
  exact ⟨h, runScript_of_error w fullData _ hdb h⟩

/-- Witness of C9: the second record of the database has no `cookieStats`; the
first one is valid and is visited before it. -/
theorem abort_before_persist_witness :
    optimize brokenInput = .error .typeError ∧
    runScript ⟨.json brokenInput, true, true⟩ = (⟨.json brokenInput, true, true⟩, .error .typeError) :=
  abort_before_persist ⟨.json brokenInput, true, true⟩ brokenInput _ rfl rfl
    ⟨_, List.mem_cons_of_mem _ (List.mem_cons_self _ _), rfl⟩

/-- C10. Not re-applicable: for every valid input the transformation produces
a document; when `sites` is not empty the transformation of that document
throws, so it is idempotent only for an empty `sites`, and a second run of the
script over a database with a site aborts and changes nothing. -/
theorem not_reapplicable (fullData : Json) (sites : List (String × Json))
    (hv : ValidDatabase fullData sites) :
    ∃ out, optimize fullData = .ok out ∧
      (sites ≠ [] → optimize out = .error .typeError) ∧
      (optimize out = .ok out ↔ sites = []) ∧
      ∀ w : World, w.siteDatabase = .json fullData → sites ≠ [] →
        runScript (runScript w).1 =
          ((runScript w).1, .error (if w.writable then .typeError else .ioError)) := by
  obtain ⟨outSites, hp, hk⟩ := projectAll_keys sites [] hv.records hv.domains
  have hout := optimize_of_projectAll fullData sites outSites hv.sites_eq hp
  have hfail : sites ≠ [] → optimize (optimizedDoc fullData outSites) = .error .typeError := by
    intro hne
    obtain ⟨p, rest, rfl⟩ := List.exists_cons_of_ne_nil hne
    have hmem : p.1 ∈ keys outSites := (hk p.1).mpr (Or.inr (by simp [keys]))
    obtain ⟨q, hq, _⟩ := List.mem_map.mp hmem
    have hlack := projectAll_lacks (p :: rest) [] outSites (by simp) hp q hq
    exact optimize_of_projectAll_error _ outSites _ (getProp_sites_optimizedDoc _ _)
      (projectAll_fails outSites [] ⟨q, hq, hlack⟩)
  refine ⟨_, hout, hfail, ?_, ?_⟩
  · constructor
    · intro h
      by_contra hne
      rw [hfail hne] at h
      cases h
    · intro hnil
      subst hnil
      simp only [projectAll] at hp
      cases hp
      rw [optimize_of_projectAll _ [] [] (getProp_sites_optimizedDoc _ _) rfl, optimizedDoc_idem]
  · intro w hdb hne
    cases hw : w.writable
    · simp [runScript, hdb, hout, hw]
    · cases hraw : w.rawExportPresent <;>
        simp [runScript, hdb, hout, hw, hraw, hfail hne]

/-- Witness of C10 on the sample database. -/
theorem not_reapplicable_witness :
    ∃ out, optimize sampleInput = .ok out ∧
      (sampleSites ≠ [] → optimize out = .error .typeError) ∧
      (optimize out = .ok out ↔ sampleSites = []) ∧
      ∀ w : World, w.siteDatabase = .json sampleInput → sampleSites ≠ [] →
        runScript (runScript w).1 =
          ((runScript w).1, .error (if w.writable then .typeError else .ioError)) :=
  not_reapplicable sampleInput sampleSites ⟨rfl, by decide, by decide⟩

end OptimizeDatabase
